import Mathlib

/-!
Verification development for the MDF PyTorch exporter
(`src/modeci_mdf/interfaces/pytorch/exporter.py`).

The exporter is a code generator: it turns an MDF graph (nodes with
parameters, ports and weighted edges) into the text of a PyTorch script.
This file gives a shallow embedding of the exporter:

* Python strings are Lean `String`s; Python `str.replace` / `in` are
  modelled by `pyReplace` / `pyContains`.
* Python scalar values appearing in parameters and edge weights are
  modelled by `PyVal` (a rational number or a string); `Option PyVal`
  models a possibly-`None` attribute.  Numeric rendering is via `ratStr`
  (exact for integers, which is what all concrete examples use).
* The module-level mutable globals of the source file (`not_self`,
  `param_set`, `graph_input`) are threaded explicitly as a `GlobalState`.
* Python runtime failures that the relevant code paths can produce
  (AttributeError, TypeError, UnboundLocalError, IndexError, KeyError)
  are modelled by `Except PyError`.
* The generated *node* forward bodies and the generated *main* forward
  body are produced as small statement ASTs (`MStmt`, `FStmt`) together
  with rendering functions whose outputs are exactly the strings the
  Python source concatenates; the exporter functions build their result
  strings through these renderers.  Evaluators (`runFwd`, `evalFStmts`)
  give the runtime semantics of the generated Python statements.
-/

namespace MDF

/-! ## Python string primitives

Implemented by structural recursion over character lists so that every
concrete theorem below can be settled by kernel reduction. -/

/-- Whether `needle` is a character-wise prefix of `hay`. -/
def isPrefixCh : List Char → List Char → Bool
  | [], _ => true
  | _ :: _, [] => false
  | a :: as, b :: bs => a == b && isPrefixCh as bs

/-- Strip `needle` from the front of `hay`, returning the remainder. -/
def stripCh : List Char → List Char → Option (List Char)
  | [], hay => some hay
  | _ :: _, [] => none
  | a :: as, b :: bs => if a == b then stripCh as bs else none

/-- Whether `needle` occurs as a contiguous sublist of `hay`. -/
def containsCh (needle : List Char) : List Char → Bool
  | [] => isPrefixCh needle []
  | c :: t => isPrefixCh needle (c :: t) || containsCh needle t

/-- Fuelled left-to-right non-overlapping replacement; with
`fuel = hay.length` and a non-empty needle this is exactly Python's
`str.replace` scan. -/
def replaceChF (needle repl : List Char) : ℕ → List Char → List Char
  | _, [] => []
  | 0, hay => hay
  | fuel + 1, c :: t =>
    match stripCh needle (c :: t) with
    | some rest => repl ++ replaceChF needle repl fuel rest
    | none => c :: replaceChF needle repl fuel t

/-- Python `needle in hay` on strings: substring containment.
The empty string is contained in every string. -/
def pyContains (needle hay : String) : Bool :=
  containsCh needle.toList hay.toList

/-- Python `hay.replace(needle, repl)`: replace every non-overlapping
occurrence, scanning left to right.  For the empty needle Python inserts
`repl` before every character and at the end. -/
def pyReplace (hay needle repl : String) : String :=
  if needle.isEmpty then
    repl ++ String.join (hay.toList.map (fun c => String.singleton c ++ repl))
  else ⟨replaceChF needle.toList repl.toList hay.toList.length hay.toList⟩

/-- Rendering of a rational scalar as Python renders the number
(exact for integers; non-integers rendered as `num/den`). -/
def ratStr (q : ℚ) : String :=
  if q.den = 1 then toString q.num else toString q.num ++ "/" ++ toString q.den

/-- A Python scalar value occurring in the IR: a number or a string. -/
inductive PyVal where
  | num (q : ℚ)
  | str (s : String)
deriving DecidableEq

/-- Python truthiness of a possibly-`None` value (`if parameter.value:`):
`None`, `0` and the empty string are falsy. -/
def pyTruthy : Option PyVal → Bool
  | none => false
  | some (.num q) => q ≠ 0
  | some (.str s) => s ≠ ""

/-- Python `f"{v}"` of a possibly-`None` value (`str()`-formatting:
no quotes around strings, `None` for `None`). -/
def pyFormat : Option PyVal → String
  | none => "None"
  | some (.num q) => ratStr q
  | some (.str s) => s

/-- Python `str(v)` of a value (used by `func_args` on bound arguments). -/
def pyStr : PyVal → String
  | .num q => ratStr q
  | .str s => s

/-- Python `repr(v)` of a possibly-`None` value (used inside `tuple(...)`
rendering: strings get quoted). -/
def pyReprVal : Option PyVal → String
  | none => "None"
  | some (.num q) => ratStr q
  | some (.str s) => "\x27" ++ s ++ "\x27"

/-- Python `f"{tuple(l)}"`: `(a, b)`, with a trailing comma for a
one-element tuple. -/
def pyTupleRepr (l : List (Option PyVal)) : String :=
  match l with
  | [x] => "(" ++ pyReprVal x ++ ",)"
  | _ => "(" ++ String.intercalate ", " (l.map pyReprVal) ++ ")"

/-! ## IR data model (§3 of the spec; attributes read by the exporter) -/

/-- An MDF `Parameter` as read by the exporter: `id`, optional direct
`value`, the result of `is_stateful()` (defined outside `src/`, in the
modeci-mdf core, hence modelled as a field), optional
`default_initial_value`, optional `time_derivative` expression, optional
`function` name with bound `args`. -/
structure Parameter where
  id : String
  value : Option PyVal := none
  stateful : Bool := false
  default_initial_value : Option PyVal := none
  time_derivative : Option String := none
  function : Option String := none
  args : List (String × PyVal) := []
deriving DecidableEq

/-- An MDF output port: only `id` and the `value` expression are read. -/
structure OutputPort where
  id : String
  value : String
deriving DecidableEq

/-- The `node_dict` handed to `get_module_declaration_text`
(input ports are only read for their ids; node-level functions only for
emptiness, so they are kept as names). -/
structure NodeDict where
  input_ports : List String
  functions : List String
  parameters : List Parameter
  output_ports : List OutputPort
deriving DecidableEq

/-- An MDF node as read by `build_script`. -/
structure Node where
  id : String
  input_ports : List String := []
  functions : List String := []
  parameters : List Parameter := []
  output_ports : List OutputPort := []
deriving DecidableEq

/-- The `node_dict` built from a node in `build_script`. -/
def Node.dict (n : Node) : NodeDict :=
  ⟨n.input_ports, n.functions, n.parameters, n.output_ports⟩

/-- An MDF edge: sender id, receiver id, and the `parameters` dict
(only the `"weight"` entry is read). -/
structure Edge where
  sender : String
  receiver : String
  parameters : List (String × ℚ) := []
deriving DecidableEq

/-- The module-level mutable globals of `exporter.py`:
`not_self = set()` (never written to by the module), `param_set = set()`
and `graph_input = []`.  The Python sets are modelled as
insertion-ordered duplicate-free lists. -/
structure GlobalState where
  not_self : List String
  param_set : List String
  graph_input : List (Option PyVal)
deriving DecidableEq

/-- The globals at interpreter start-up. -/
def initGlobals : GlobalState := ⟨[], [], []⟩

/-- `s.add(x)` on the list model of a Python set. -/
def addSet (l : List String) (x : String) : List String :=
  if x ∈ l then l else l ++ [x]

/-- Python runtime failures reachable in the modelled code paths. -/
inductive PyError where
  | attributeError
  | typeError
  | unboundLocalExp
  | indexError
  | keyError
deriving DecidableEq

/-! ## ExpressionTranslator: `sym` and `func_args` (source lines 127-138) -/

/-- `sym(value)`: for each id in `param_set` (threaded explicitly), if it
occurs as a substring of `value`, replace every occurrence by
`"self." + id`.  This is plain substring replacement. -/
def sym (param_set : List String) (value : String) : String :=
  param_set.foldl
    (fun v i => if pyContains i v then pyReplace v i ("self." ++ i) else v) value

/-- `sym` applied to an arbitrary Python value: `i in value` raises
`TypeError` when `value` is a number and the loop body is reached
(i.e. `param_set` is non-empty); with an empty `param_set` the number is
returned unchanged and later `str`-formatted. -/
def symV (param_set : List String) (v : PyVal) : Except PyError String :=
  match v with
  | .str s => .ok (sym param_set s)
  | .num q => if param_set = [] then .ok (ratStr q) else .error .typeError

/-- `func_args(exp, arg_dict)`: for each bound argument name occurring as
a substring of `exp`, replace every occurrence by `str(value)`. -/
def func_args (exp : String) (arg_dict : List (String × PyVal)) : String :=
  arg_dict.foldl
    (fun e kv => if pyContains kv.1 e then pyReplace e kv.1 (pyStr kv.2) else e) exp

/-! ## NodeModuleSynthesizer: `get_module_declaration_text` (lines 28-123)

The generated `forward` body of one node class is produced as a list of
`MStmt` statements; `renderMStmt` produces exactly the line the source
appends for each of them.  The `__init__` default-argument entry for one
parameter is produced by `initSigEntry`. -/

/-- One generated line of a node's `forward` body (after the fixed
execution-counter line). -/
inductive MStmt where
  | assignState (p : String) (rhs : String)
  | accumState (p : String) (rhs : String)
  | assignLocal (p : String) (rhs : String)
deriving DecidableEq

/-- The exact text the source appends for one forward-body statement:
`"\n\t\tself.{p}={rhs}"`, `"\n\t\tself.{p}=self.{p}+({rhs})"` and
`"\n\t\t{p}={rhs}"` respectively. -/
def renderMStmt : MStmt → String
  | .assignState p rhs => "\n\t\tself." ++ p ++ "=" ++ rhs
  | .accumState p rhs => "\n\t\tself." ++ p ++ "=self." ++ p ++ "+(" ++ rhs ++ ")"
  | .assignLocal p rhs => "\n\t\t" ++ p ++ "=" ++ rhs

/-- The `__init__` default-argument text generated for one parameter
(lines 64-76), given the current `param_set`:
a non-stateful non-function parameter gets its formatted `value`; a
stateful parameter gets `0` when its `value` is truthy, otherwise its
formatted `default_initial_value` — except the corner where the default
equals the string `"str"` and `"str"` is in `param_set`, which evaluates
`"str".value` and raises `AttributeError`.  A non-stateful function
parameter contributes nothing. -/
def initSigEntry (param_set : List String) (p : Parameter) :
    Except PyError (Option String) :=
  if p.stateful = false ∧ p.function = none then
    .ok (some (p.id ++ "=torch.tensor(" ++ pyFormat p.value ++ "),"))
  else if p.stateful then
    if pyTruthy p.value then
      .ok (some (p.id ++ "=torch.tensor(0),"))
    else if p.default_initial_value = some (.str "str") ∧ "str" ∈ param_set then
      .error .attributeError
    else
      .ok (some (p.id ++ "=torch.tensor(" ++ pyFormat p.default_initial_value ++ "),"))
  else
    .ok none

/-- One iteration of the `__init__`-signature loop (lines 59-76): append
`value` to the global `graph_input` when the id is `input_level`, add
non-function ids to the global `param_set`, then append the signature
entry. -/
def initSigStep (st : String × GlobalState) (p : Parameter) :
    Except PyError (String × GlobalState) :=
  let g := st.2
  let g := { g with graph_input :=
    if p.id = "input_level" then g.graph_input ++ [p.value] else g.graph_input }
  let g := { g with param_set :=
    if p.function = none then addSet g.param_set p.id else g.param_set }
  match initSigEntry g.param_set p with
  | .error e => .error e
  | .ok none => .ok (st.1, g)
  | .ok (some t) => .ok (st.1 ++ t, g)

/-- One iteration of the forward-body loop (lines 98-116), threading the
accumulated statements and the Python local `exp` (which is unbound
until the first registry hit, and stale afterwards): a stateful
non-function parameter with a truthy `value` gets a replacement
assignment of `sym(value)`; one with a falsy `value` and a truthy
`time_derivative` gets an accumulation of `sym(time_derivative)`; a
function parameter gets a local assignment of the argument-bound,
scope-translated registry template when the name is in the registry, of
the stale `exp` when it is not, and raises `UnboundLocalError` when the
name is unknown and no `exp` was ever assigned. -/
def fwdParamStep (reg : List (String × String)) (param_set : List String)
    (st : List MStmt × Option String) (p : Parameter) :
    Except PyError (List MStmt × Option String) :=
  match p.function with
  | none =>
    if p.stateful then
      match p.value with
      | some v =>
        if pyTruthy (some v) then
          match symV param_set v with
          | .error e => .error e
          | .ok rhs => .ok (st.1 ++ [.assignState p.id rhs], st.2)
        else
          match p.time_derivative with
          | some td =>
            if td ≠ "" then .ok (st.1 ++ [.accumState p.id (sym param_set td)], st.2)
            else .ok st
          | none => .ok st
      | none =>
        match p.time_derivative with
        | some td =>
          if td ≠ "" then .ok (st.1 ++ [.accumState p.id (sym param_set td)], st.2)
          else .ok st
        | none => .ok st
    else .ok st
  | some fn =>
    match reg.lookup fn with
    | some tmpl =>
      let e := sym param_set (func_args tmpl p.args)
      .ok (st.1 ++ [.assignLocal p.id e], some e)
    | none =>
      match st.2 with
      | some stale => .ok (st.1 ++ [.assignLocal p.id stale], st.2)
      | none => .error .unboundLocalExp

/-- The statements of a node's generated `forward` body, in parameter
order (the structured content of lines 98-116). -/
def forwardStmtsOfNode (reg : List (String × String)) (param_set : List String)
    (params : List Parameter) : Except PyError (List MStmt) :=
  Except.map (fun r => r.1)
    (params.foldlM (fwdParamStep reg param_set)
      (([], none) : List MStmt × Option String))

/-- `get_module_declaration_text(name, node_dict, execution_order)`
(lines 28-123; `execution_order` is never read by the source body and is
omitted).  Returns the generated class text and the updated globals.
When the parameter list is empty or the node-level function list is
non-empty, only the bare class header is produced and the globals are
untouched. -/
def get_module_declaration_text (reg : List (String × String)) (name : String)
    (nd : NodeDict) (g : GlobalState) : Except PyError (String × GlobalState) :=
  let header := "\nclass " ++ name ++ "(nn.Module):"
  if !nd.parameters.isEmpty && nd.functions.isEmpty then
    match nd.parameters.foldlM initSigStep ("", g) with
    | .error e => .error e
    | .ok (sig, g') =>
      let selfAssigns := String.join (nd.parameters.map (fun p =>
        if p.function = none then "\n\t\tself." ++ p.id ++ "=" ++ p.id else ""))
      match forwardStmtsOfNode reg g'.param_set nd.parameters with
      | .error e => .error e
      | .ok stmts =>
        let fwdText := "\n\tdef forward(self," ++ String.join nd.input_ports
          ++ " ):"
          ++ "\n\t\tself.execution_count=self.execution_count+torch.tensor(1)"
          ++ String.join (stmts.map renderMStmt)
        match nd.output_ports with
        | [] => .error .indexError
        | o :: _ =>
          let retText :=
            if o.value ∈ g'.not_self then "\n\t\treturn " ++ o.value
            else "\n\t\treturn " ++ sym g'.param_set o.value
          .ok (header ++ "\n\tdef __init__(self," ++ sig ++ "):"
            ++ "\n\t\tsuper().__init__()" ++ selfAssigns
            ++ "\n\t\tself.execution_count=torch.tensor(0)"
            ++ fwdText ++ retText, g')
  else .ok (header, g)

/-! ## Runtime semantics of a generated node class -/

/-- The persistent state of one generated node object: its `self.`
attributes (parameter states) and the execution counter. -/
structure PState where
  vars : List (String × ℚ)
  count : ℕ
deriving DecidableEq

/-- Lookup in the association-list environment (later bindings shadow
earlier ones). -/
def envGet (env : List (String × ℚ)) (n : String) : Option ℚ :=
  env.lookup n

/-- The numeric value of a digit character, if it is one. -/
def chDigit (c : Char) : Option ℕ :=
  if 48 ≤ c.toNat ∧ c.toNat ≤ 57 then some (c.toNat - 48) else none

/-- Accumulating decimal parse of a digit list. -/
def natOfDigits : List Char → ℕ → Option ℕ
  | [], acc => some acc
  | c :: t, acc =>
    match chDigit c with
    | some d => natOfDigits t (acc * 10 + d)
    | none => none

/-- Parse a non-empty all-digit string as a natural number. -/
def strToNat (s : String) : Option ℕ :=
  match s.toList with
  | [] => none
  | l => natOfDigits l 0

/-- Evaluation of the restricted right-hand-side expressions the claims
exercise: a natural-number literal, a `self.`-attribute reference, or a
local name. -/
def evalES (vars locals : List (String × ℚ)) (s : String) : Option ℚ :=
  match strToNat s with
  | some n => some (n : ℚ)
  | none =>
    if isPrefixCh "self.".toList s.toList then envGet vars (s.drop 5)
    else envGet locals s

/-- One invocation of a generated node `forward`: the execution counter
is incremented (the fixed first line), then the body statements run in
order; `self.` assignments update the persistent state, local
assignments a transient local namespace. -/
def runStmt (vl : List (String × ℚ) × List (String × ℚ)) (m : MStmt) :
    Option (List (String × ℚ) × List (String × ℚ)) :=
  match m with
  | .assignState p rhs =>
    (evalES vl.1 vl.2 rhs).map (fun v => ((p, v) :: vl.1, vl.2))
  | .accumState p rhs =>
    (envGet vl.1 p).bind (fun a =>
      (evalES vl.1 vl.2 rhs).map (fun v => ((p, a + v) :: vl.1, vl.2)))
  | .assignLocal p rhs =>
    (evalES vl.1 vl.2 rhs).map (fun v => (vl.1, (p, v) :: vl.2))

/-- See `runStmt`: an invocation folds the body statements over the
state, starting from an empty local namespace, after bumping the
execution counter. -/
def runFwd (stmts : List MStmt) (st : PState) : Option PState :=
  (stmts.foldlM runStmt (st.vars, ([] : List (String × ℚ)))).map
    (fun vl => ⟨vl.1, st.count + 1⟩)

/-- `n` successive invocations of a generated node `forward`. -/
def runN (stmts : List MStmt) : ℕ → PState → Option PState
  | 0, st => some st
  | n + 1, st => (runN stmts n st).bind (runFwd stmts)

/-! ## GraphAssembler: `generate_main_forward` (lines 142-186)

The body of the generated `Model.forward` is produced as a list of
`FStmt` statements; `renderFStmt` produces exactly the line the source
appends for each of them. -/

/-- One generated line of the main `forward` body:
zero-initialisation of a node's running value, the no-argument call for
a node with an empty dependency set, or one per-edge call for a node
with dependencies (with the optional declared weight). -/
inductive FStmt where
  | initZero (node : String)
  | sourceCall (node : String)
  | edgeCall (node sender : String) (w : Option ℚ)
deriving DecidableEq

/-- The exact text the source appends for one main-forward statement. -/
def renderFStmt : FStmt → String
  | .initZero n => "\n\t\t val_" ++ n ++ "=torch.zeros_like(input)"
  | .sourceCall n => "\n\n\t\t val_" ++ n ++ "=val_" ++ n ++ "+self." ++ n ++ "()"
  | .edgeCall n k none =>
    "\n\t\t val_" ++ n ++ "=val_" ++ n ++ "+self." ++ n ++ "(val_" ++ k ++ ")"
  | .edgeCall n k (some w) =>
    "\n\t\t val_" ++ n ++ "=val_" ++ n ++ "+self." ++ n ++ "(val_" ++ k
      ++ "*torch.tensor(" ++ ratStr w ++ "))"

/-- The calls generated for one entry of `d_e` (lines 167-179): a single
no-argument call when the dependency set is empty, otherwise one call
per dependency in dictionary order. -/
def groupFStmts (e : String × List (String × Option ℚ)) : List FStmt :=
  match e.2 with
  | [] => [.sourceCall e.1]
  | deps => deps.map (fun kw => FStmt.edgeCall e.1 kw.1 kw.2)

/-- All statements of the generated main forward body (lines 163-179):
nothing when the execution order is empty, otherwise one
zero-initialisation per execution-order entry followed by the call
groups of `d_e` in dictionary (node-declaration) order. -/
def forwardStmts (execution_order : List String)
    (d_e : List (String × List (String × Option ℚ))) : List FStmt :=
  if execution_order = [] then []
  else execution_order.map FStmt.initZero ++ d_e.flatMap groupFStmts

/-- `generate_main_forward(nodes, execution_order, d_e)` (lines 142-186;
the `nodes` argument is only used to build an unused dictionary and is
omitted).  The trailing `return` lists `d[node]` for every
execution-order entry, where `d` maps every `d_e` key processed by the
loop to `val_{node}`; a `KeyError` is raised for an execution-order
entry that never got a `d` entry. -/
def generate_main_forward (execution_order : List String)
    (d_e : List (String × List (String × Option ℚ))) : Except PyError String :=
  let body := String.join ((forwardStmts execution_order d_e).map renderFStmt)
  let d : List (String × String) :=
    if execution_order = [] then []
    else d_e.map (fun e => (e.1, "val_" ++ e.1))
  match execution_order.foldlM (fun acc n =>
      match d.lookup n with
      | some v => Except.ok (acc ++ v ++ ",")
      | none => Except.error PyError.keyError) "" with
  | .error e => .error e
  | .ok retPart =>
    .ok ("\n\tdef forward(self, input):" ++ body ++ "\n\n\t\t return " ++ retPart)

/-! ## Runtime semantics of the generated main forward -/

/-- The record of one node-unit invocation performed by the generated
main forward: the invoked node, the sender running value it consumed
(`none` for the no-argument call), the declared edge weight, the actual
argument passed (`senderVal * weight`, or `senderVal` without a weight,
or nothing), and the value the unit returned. -/
structure TraceEntry where
  node : String
  senderVal : Option ℚ
  weight : Option ℚ
  arg : Option ℚ
  result : ℚ
deriving DecidableEq

/-- The argument actually passed for a consumed value `v` under an
optional declared weight. -/
def weightApply (v : ℚ) : Option ℚ → ℚ
  | none => v
  | some w => v * w

/-- The evaluation state of the generated main forward: the `val_` local
environment, the combined mutable state of all node units, and the
trace of unit invocations so far. -/
structure EvalSt (U : Type) where
  env : List (String × ℚ)
  u : U
  trace : List TraceEntry

/-- One step of the generated main forward.  `ustep n a u` is the node
units' behaviour: invoking node `n`'s `forward` with optional argument
`a` in combined unit state `u` yields the new unit state and the
returned value.  Reading an uninitialised `val_` name is Python's
`NameError`, modelled as `none`. -/
def stepFStmt {U : Type} (ustep : String → Option ℚ → U → U × ℚ)
    (s : EvalSt U) : FStmt → Option (EvalSt U)
  | .initZero n => some { s with env := (n, 0) :: s.env }
  | .sourceCall n =>
    match envGet s.env n with
    | none => none
    | some a =>
      let p := ustep n none s.u
      some ⟨(n, a + p.2) :: s.env, p.1, s.trace ++ [⟨n, none, none, none, p.2⟩]⟩
  | .edgeCall n k w =>
    match envGet s.env n, envGet s.env k with
    | some a, some b =>
      let arg := weightApply b w
      let p := ustep n (some arg) s.u
      some ⟨(n, a + p.2) :: s.env, p.1,
        s.trace ++ [⟨n, some b, w, some arg, p.2⟩]⟩
    | _, _ => none

/-- Evaluation of a list of main-forward statements. -/
def evalFStmts {U : Type} (ustep : String → Option ℚ → U → U × ℚ) :
    List FStmt → EvalSt U → Option (EvalSt U)
  | [], s => some s
  | st :: rest, s =>
    match stepFStmt ustep s st with
    | none => none
    | some s' => evalFStmts ustep rest s'

/-! ## Exporter pipeline: execution order, `d_e`, `build_script`
(lines 190-335) -/

/-- The execution-order construction of `_generate_scripts_from_model`
(lines 308-327): the first edge's sender followed by every edge's
receiver, in edge order; when there are no edges at all, the node ids in
declaration order. -/
def execOrderOfEdges (ordered_edges : List Edge) (node_ids : List String) :
    List String :=
  let eo : List String :=
    match ordered_edges with
    | [] => []
    | e :: _ => e.sender :: ordered_edges.map (fun x => x.receiver)
  if eo = [] then node_ids else eo

/-- The weight the `d_e` construction stores for one edge:
`edge.parameters["weight"]` when present, else `None` (lines 316-319). -/
def edgeWeight (e : Edge) : Option ℚ :=
  e.parameters.lookup "weight"

/-- Overwrite-or-append update on the list model of a Python dict
(insertion order preserved, as in Python). -/
def dictSet (l : List (String × Option ℚ)) (k : String) (v : Option ℚ) :
    List (String × Option ℚ) :=
  if l.any (fun p => p.1 == k) then
    l.map (fun p => if p.1 == k then (k, v) else p)
  else l ++ [(k, v)]

/-- The `d_e` construction (lines 311-319): one entry per node in
declaration order, each updated with `sender -> weight` for every edge
into it.  Edges naming a receiver that is not a node are outside the
modelled domain (Python would raise on `graph.get_node` returning
`None`). -/
def buildDE (node_ids : List String) (edges : List Edge) :
    List (String × List (String × Option ℚ)) :=
  edges.foldl (fun l e =>
    l.map (fun p =>
      if p.1 == e.receiver then (p.1, dictSet p.2 e.sender (edgeWeight e)) else p))
    (node_ids.map (fun i => (i, ([] : List (String × Option ℚ)))))

/-- `build_script(nodes, execution_order, model_id1, d_e)`
(lines 190-282): the module declarations (threading the globals), the
`Model` class, the main forward, and — for more than one node — the
instantiation / scripting / export trailer whose `dummy_input` line
depends on the global `graph_input`. -/
def build_script (reg : List (String × String)) (nodes : List Node)
    (execution_order : List String) (model_id1 : String)
    (d_e : List (String × List (String × Option ℚ))) (g : GlobalState) :
    Except PyError (String × GlobalState) :=
  let model_id := model_id1 ++ ".onnx"
  let imports :=
    "import torch\nimport torch.nn as nn\nimport onnx\nimport onnxruntime as rt\nfrom math import *"
  match nodes.foldlM (fun (st : String × GlobalState) nd =>
      match get_module_declaration_text reg nd.id nd.dict st.2 with
      | .error e => Except.error e
      | .ok (t, g') => Except.ok (st.1 ++ t, g')) ("", g) with
  | .error e => .error e
  | .ok (decls, g') =>
    let mainDecl := "\nclass Model(nn.Module):" ++ "\n\tdef __init__(self,"
      ++ String.join (nodes.map (fun nd => nd.id ++ ", "))
      ++ "):" ++ "\n\t\tsuper().__init__()"
      ++ String.join (nodes.map (fun nd => "\n\t\tself." ++ nd.id ++ " = " ++ nd.id))
    match generate_main_forward execution_order d_e with
    | .error e => .error e
    | .ok mainFwd =>
      let script := imports ++ decls ++ mainDecl ++ mainFwd
      match nodes with
      | [_] => .ok (script ++ "f\nmodel=\x7bnodes[0].id\x7d", g')
      | _ =>
        let script := script ++ "\nmodel = Model("
          ++ String.join (nodes.map (fun nd => nd.id ++ "=" ++ nd.id ++ "(),"))
          ++ ")" ++ "\nmodel=torch.jit.script(model)"
        let script := script ++
          (if g'.graph_input ≠ [] then
            "\ndummy_input =torch.tensor" ++ pyTupleRepr g'.graph_input
          else "\ndummy_input =torch.tensor(0.0)")
        let script := script ++ "\noutput = model(dummy_input)"
          ++ "\ntorch.onnx.export(model,dummy_input,\x27" ++ model_id
          ++ "\x27,verbose=True,input_names=[],example_outputs=output,opset_version=9)"
          ++ "\nonnx_model = onnx.load(\x27" ++ model_id ++ "\x27)"
          ++ "\nonnx.checker.check_model(onnx_model)"
          ++ "\nsess = rt.InferenceSession(\x27" ++ model_id ++ "\x27)"
          ++ "\nres = sess.run(None, \x7bsess.get_inputs()[0].name: dummy_input.numpy()\x7d)"
        .ok (script, g')

/-- The per-graph body of `_generate_scripts_from_model` (lines 298-333)
for a single graph: the execution order from the engine-ordered edges,
`d_e` from the graph's edges, then `build_script`.  The external
`EvaluableGraph` only supplies the `ordered_edges` list, taken here as
an input. -/
def compile_graph (reg : List (String × String)) (nodes : List Node)
    (graph_edges ordered_edges : List Edge) (model_id1 : String)
    (g : GlobalState) : Except PyError (String × GlobalState) :=
  let eo := execOrderOfEdges ordered_edges (nodes.map (fun n => n.id))
  let d_e := buildDE (nodes.map (fun n => n.id)) graph_edges
  build_script reg nodes eo model_id1 d_e g

/-- Whether `order` is a topological order for `edges` in the sense of
the spec's §8 property: every edge's sender and receiver occur in the
order, with the sender strictly earlier. -/
def isTopoOrder (order : List String) (edges : List Edge) : Bool :=
  edges.all (fun e =>
    order.contains e.sender && order.contains e.receiver &&
      decide (order.indexOf e.sender < order.indexOf e.receiver))

/-! ## Statements of claims, and concrete instances used to settle them -/

/-- The acyclic two-roots graph used against C1: nodes `A`, `B`, `C`
declared in that order, edges `B→C` then `A→C` (edge-iteration order). -/
def c1edges : List Edge := [⟨"B", "C", []⟩, ⟨"A", "C", []⟩]

/-- Node declaration order of the C1 instance. -/
def c1nodeIds : List String := ["A", "B", "C"]

/-- The cyclic graph used against C2: two parameterless nodes with edges
`A→B` and `B→A`. -/
def c2nodes : List Node := [{ id := "A" }, { id := "B" }]

/-- The cyclic edge set `A→B→A`. -/
def c2edges : List Edge := [⟨"A", "B", []⟩, ⟨"B", "A", []⟩]

/-- Claim C5, formalised from the spec's words: every node whose
dependency set is empty is invoked on the external input, i.e. the
generated main forward contains the call text `self.{node}(input)`. -/
def C5_claimed (eo : List String)
    (d_e : List (String × List (String × Option ℚ))) : Prop :=
  ∀ e ∈ d_e, e.2 = [] → ∀ s, generate_main_forward eo d_e = Except.ok s →
    pyContains ("self." ++ e.1 ++ "(input)") s = true

/-- Claim C6's update rule, formalised from the spec's words:
`new = old + eval(translated_derivative)`. -/
def C6_claimedNext (old k : ℚ) : ℚ := old + k

/-- The parameter used against C6: stateful, with BOTH a truthy direct
value (`"9"`) and a time-derivative expression (`"2"`). -/
def C6_pBoth : Parameter :=
  ⟨"s", some (.str "9"), true, none, some "2", none, []⟩

/-- Claim C7's initialisation rule, formalised from the spec's words in
clause order: the literal value when one is given; zero when the
parameter is stateful; else the declared default initial value. -/
def C7_claimedInitText (p : Parameter) : String :=
  if p.value.isSome then pyFormat p.value
  else if p.stateful then "0"
  else pyFormat p.default_initial_value

/-- The `__init__` signature entry claim C7 predicts for a parameter. -/
def C7_claimedEntry (p : Parameter) : String :=
  p.id ++ "=torch.tensor(" ++ C7_claimedInitText p ++ "),"

/-- The stateful parameter with a truthy direct value used against C7. -/
def c7param : Parameter := ⟨"s", some (.num 5), true, none, none, none, []⟩

/-- First model of the C8 instance: a single node whose `input_level`
parameter value 3 is appended to the process-wide `graph_input`. -/
def c8m1 : List Node :=
  [{ id := "X",
     parameters := [{ id := "input_level", value := some (.num 3) }],
     output_ports := [⟨"out", "input_level"⟩] }]

/-- Second model of the C8 instance: two parameterless nodes `P→Q`. -/
def c8m2 : List Node := [{ id := "P" }, { id := "Q" }]

/-- The edge of the second C8 model. -/
def c8e2 : List Edge := [⟨"P", "Q", []⟩]

/-- What claim C4 asserts of one trace entry against one dependency-map
entry: the invocation is of the node itself, carries the edge's declared
weight, and consumes the sender's current value multiplied by the weight
(unmultiplied when no weight is declared). -/
def entryMatches (n : String) (e : TraceEntry) (kw : String × Option ℚ) :
    Prop :=
  e.node = n ∧ e.weight = kw.2 ∧
    ∃ v, e.senderVal = some v ∧ e.arg = some (weightApply v kw.2)

/-- The unit-behaviour function used by the C4 and C5 witnesses: every
invocation returns its argument (default 3 for the no-argument call)
plus one, with no unit state. -/
def ustepW : String → Option ℚ → Unit → Unit × ℚ :=
  fun _ a u => (u, a.getD 3 + 1)

/-- The evaluation state reached by the main forward of the witness
graph `A→B` (weight 2) under `ustepW`. -/
def c4stW : EvalSt Unit :=
  ⟨[("B", 9), ("A", 4), ("B", 0), ("A", 0)], (),
   [⟨"A", none, none, none, 4⟩, ⟨"B", some 4, some 2, some 8, 9⟩]⟩

/-- The node used against C9: one parameter bound to function name
`linear`, which is absent from the registry. -/
def c9node : NodeDict :=
  ⟨["in1"], [],
   [⟨"f1", none, false, none, none, some "linear", [("slope", .num 2)]⟩],
   [⟨"out1", "f1"⟩]⟩

/-- A registry without `linear` but with `known`. -/
def c9reg : List (String × String) := [("known", "x + y")]

/-- The node showing silent stale-expression reuse for C9: a parameter
bound to the registered `known` followed by one bound to the unknown
`nope`. -/
def c9nodeStale : NodeDict :=
  ⟨["in1"], [],
   [⟨"g1", none, false, none, none, some "known", []⟩,
    ⟨"f1", none, false, none, none, some "nope", []⟩],
   [⟨"out1", "f1"⟩]⟩

end MDF

deriving instance DecidableEq for Except

namespace MDF

/-! ## Claims settled by concrete computation -/

/-- C1: the claim says that for every acyclic graph the produced
execution order is topological (every edge's sender strictly before its
receiver, both present).  Refuted on the acyclic graph `B→C`, `A→C`
with declaration order `A, B, C`: the order construction emits
`[B, C, C]`, which omits `A` (so the edge `A→C` has its sender nowhere
in the order) and repeats `C`; the first conjunct shows the input is
acyclic by exhibiting the topological order `[A, B, C]`. -/
theorem C1_exec_order_not_topological :
    isTopoOrder ["A", "B", "C"] c1edges = true ∧
    execOrderOfEdges c1edges c1nodeIds = ["B", "C", "C"] ∧
    isTopoOrder (execOrderOfEdges c1edges c1nodeIds) c1edges = false := by
  decide

/-- C2: the claim says a cyclic graph must fail compilation with
`CyclicGraph`.  The code has no cycle detection at all: on the cycle
`A→B→A` the execution-order construction emits `[A, B, A]` and the
whole pipeline silently produces a script (`Except.ok`). -/
theorem C2_cycle_compiles_silently :
    execOrderOfEdges c2edges (c2nodes.map (fun n => n.id)) = ["A", "B", "A"] ∧
    (compile_graph [] c2nodes c2edges c2edges "m" initGlobals).isOk = true := by
  decide

/-- C3: the claim says `sym` and `func_args` replace only whole-token
occurrences, never substrings of a longer identifier.  Both perform
plain substring replacement: `sym` with `param_set = {w}` corrupts the
identifier `weight` into `self.weight`, and `func_args` binding `a := 2`
corrupts `abs(a)` into `2bs(2)`. -/
theorem C3_substring_not_whole_token :
    sym ["w"] "weight" = "self.weight" ∧
    func_args "abs(a)" [("a", PyVal.num 2)] = "2bs(2)" := by
  decide

/-- C9: the claim says an unknown function name fails with
`UnknownFunction` at compile time.  The code guards the registry lookup
with no else-branch: for a first function parameter with unknown name
the local `exp` is unbound (Python `UnboundLocalError`), and when a
registered function parameter precedes, the unknown one silently reuses
the stale previous expression and generation succeeds. -/
theorem C9_unknown_function_unbound_local :
    get_module_declaration_text [] "Nf" c9node initGlobals
      = .error .unboundLocalExp ∧
    (get_module_declaration_text c9reg "Ng" c9nodeStale initGlobals).isOk
      = true := by
  decide

/-- C10: for a node whose parameter list is empty or whose node-level
function list is non-empty, `get_module_declaration_text` returns only
the bare class header (no `__init__`, no `forward`, no execution
counter) and leaves the globals untouched. -/
theorem C10_bare_header (reg : List (String × String)) (name : String)
    (nd : NodeDict) (g : GlobalState)
    (h : nd.parameters = [] ∨ nd.functions ≠ []) :
    get_module_declaration_text reg name nd g
      = .ok ("\nclass " ++ name ++ "(nn.Module):", g) := by
  unfold get_module_declaration_text
  rcases h with h | h
  · simp [h]
  · have hf : nd.functions.isEmpty = false := by
      cases hfn : nd.functions with
      | nil => exact absurd hfn h
      | cons a t => rfl
    simp [hf]

/-- C10 witness: a node with a parameter but also a node-level function
gets only the bare header. -/
theorem C10_bare_header_witness :
    get_module_declaration_text [] "N"
      ⟨[], ["fn"], [⟨"p", none, false, none, none, none, []⟩], []⟩ initGlobals
      = .ok ("\nclass N(nn.Module):", initGlobals) :=
  C10_bare_header [] "N" _ initGlobals (Or.inr (by decide))

/-- C7 counterexample: the claim's first clause says a parameter with a
literal value is initialised to that value; but a stateful parameter
with (truthy) value 5 is initialised to `0`, not `5`. -/
theorem C7_cex_stateful_value_not_literal :
    initSigEntry ["s"] c7param = .ok (some "s=torch.tensor(0),") ∧
    C7_claimedEntry c7param = "s=torch.tensor(5)," ∧
    ("s=torch.tensor(0)," : String) ≠ "s=torch.tensor(5)," := by
  decide

/-- C7 as amended: for a non-function parameter, outside the degenerate
corner (default equal to the string `"str"` with `"str"` an
already-seen parameter id, which raises `AttributeError`), the
initialisation is: zero for a stateful parameter with a truthy direct
value; the declared default initial value for a stateful parameter
without one; the literal value (rendering `None` when absent) for a
non-stateful parameter. -/
theorem C7_init_rule (ps : List String) (p : Parameter)
    (hf : p.function = none)
    (hc : ¬(p.default_initial_value = some (.str "str") ∧ "str" ∈ ps)) :
    initSigEntry ps p = .ok (some (p.id ++ "=torch.tensor(" ++
      (if p.stateful then
        (if pyTruthy p.value then "0" else pyFormat p.default_initial_value)
       else pyFormat p.value) ++ "),")) := by
  unfold initSigEntry
  cases hs : p.stateful with
  | false => simp [hf, hs]
  | true =>
    by_cases ht : pyTruthy p.value
    · simp [hs, ht, String.append_assoc]
    · simp [hs, ht, hc]

/-- C7 witness: a stateful parameter without a value is initialised to
its declared default. -/
theorem C7_init_rule_witness :
    initSigEntry [] ⟨"h", none, true, some (.num 7), none, none, []⟩
      = .ok (some "h=torch.tensor(7),") :=
  C7_init_rule [] ⟨"h", none, true, some (.num 7), none, none, []⟩ rfl
    (by decide)

/-- C6 counterexample: the claim says every stateful parameter with a
time-derivative expression accumulates each step.  A stateful parameter
with both a truthy direct value `"9"` and time derivative `"2"` instead
has its state replaced: from state 100 one step yields 9, not the
claimed `100 + 2`. -/
theorem C6_cex_direct_value_overrides_derivative :
    forwardStmtsOfNode [] ["s"] [C6_pBoth] = .ok [.assignState "s" "9"] ∧
    runFwd [.assignState "s" "9"] ⟨[("s", 100)], 0⟩
      = some ⟨[("s", 9), ("s", 100)], 1⟩ ∧
    envGet [("s", (9 : ℚ)), ("s", 100)] "s" = some 9 ∧
    (9 : ℚ) ≠ C6_claimedNext 100 2 :=
  ⟨by decide, by decide, by decide, by norm_num [C6_claimedNext]⟩

set_option maxRecDepth 40000 in
/-- C8: the claim says a model's script is unaffected by compilations
performed earlier in the process.  The module-level globals leak:
compiling the `input_level` model first makes the later model's
generated `dummy_input` line `torch.tensor(3,)` instead of
`torch.tensor(0.0)`, so the same model yields two different scripts. -/
theorem C8_process_wide_state_leaks :
    Except.map (fun r => r.1)
      ((compile_graph [] c8m1 [] [] "m1" initGlobals).bind
        (fun r => compile_graph [] c8m2 c8e2 c8e2 "m2" r.2))
    ≠ Except.map (fun r => r.1)
        (compile_graph [] c8m2 c8e2 c8e2 "m2" initGlobals) := by
  decide

/-- C5 counterexample: the claim says every source node's invocation
receives the external input.  For the one-source-node graph the
generated call is `self.A()` — the main forward text contains no
`self.A(input)`. -/
theorem C5_cex_source_not_given_input : ¬ C5_claimed ["A"] [("A", [])] := by
  intro h
  have h2 := h ("A", []) (by decide) rfl
    "\n\tdef forward(self, input):\n\t\t val_A=torch.zeros_like(input)\n\n\t\t val_A=val_A+self.A()\n\n\t\t return val_A,"
    (by decide)
  exact absurd h2 (by decide)

/-! ## Lemmas about the main-forward evaluator -/

theorem envGet_cons (k : String) (v : ℚ) (env : List (String × ℚ))
    (m : String) :
    envGet ((k, v) :: env) m = if m = k then some v else envGet env m := by
  by_cases h : m = k
  · simp [envGet, List.lookup, h]
  · have hb : (m == k) = false := by simp [h]
    simp [envGet, List.lookup, h, hb]

theorem envGet_nil (m : String) : envGet [] m = none := rfl

theorem evalFStmts_append {U : Type} (ustep : String → Option ℚ → U → U × ℚ) :
    ∀ (xs ys : List FStmt) (s : EvalSt U),
      evalFStmts ustep (xs ++ ys) s
        = (evalFStmts ustep xs s).bind (evalFStmts ustep ys) := by
  intro xs
  induction xs with
  | nil => intro ys s; rfl
  | cons x xs ih =>
    intro ys s
    show evalFStmts ustep (x :: (xs ++ ys)) s = _
    cases h : stepFStmt ustep s x with
    | none => simp [evalFStmts, h]
    | some s1 => simp [evalFStmts, h, ih ys s1]

theorem evalInits {U : Type} (ustep : String → Option ℚ → U → U × ℚ) :
    ∀ (eo : List String) (s : EvalSt U),
      ∃ s', evalFStmts ustep (eo.map FStmt.initZero) s = some s' ∧
        s'.u = s.u ∧ s'.trace = s.trace ∧
        ∀ m, envGet s'.env m = if m ∈ eo then some 0 else envGet s.env m := by
  intro eo
  induction eo with
  | nil => intro s; exact ⟨s, rfl, rfl, rfl, fun m => by simp⟩
  | cons h t ih =>
    intro s
    obtain ⟨s', h1, h2, h3, h4⟩ := ih ⟨(h, 0) :: s.env, s.u, s.trace⟩
    refine ⟨s', ?_, h2, h3, ?_⟩
    · simpa [evalFStmts, stepFStmt] using h1
    · intro m
      rw [h4 m]
      by_cases ht : m ∈ t
      · simp [ht]
      · by_cases hh : m = h
        · simp [ht, hh, envGet_cons]
        · simp [ht, hh, envGet_cons]

theorem forall₂_node {n : String} :
    ∀ {es : List TraceEntry} {deps : List (String × Option ℚ)},
      List.Forall₂ (entryMatches n) es deps → ∀ e ∈ es, e.node = n := by
  intro es deps h
  induction h with
  | nil => simp
  | cons h1 h2 ih =>
    intro e he
    rcases List.mem_cons.mp he with rfl | he'
    · exact h1.1
    · exact ih e he'

theorem evalEdges_spec {U : Type} (ustep : String → Option ℚ → U → U × ℚ)
    (m : String) :
    ∀ (deps : List (String × Option ℚ)) (s s' : EvalSt U),
      evalFStmts ustep (deps.map (fun kw => FStmt.edgeCall m kw.1 kw.2)) s
        = some s' →
      (∀ x, x ≠ m → envGet s'.env x = envGet s.env x) ∧
      (∃ es, s'.trace = s.trace ++ es ∧
        List.Forall₂ (entryMatches m) es deps ∧
        ∀ a, envGet s.env m = some a →
          envGet s'.env m = some (a + (es.map (fun e => e.result)).sum)) ∧
      (deps = [] ∨ (envGet s.env m).isSome = true) := by
  intro deps
  induction deps with
  | nil =>
    intro s s' h
    obtain rfl : s = s' := Option.some.inj (by simpa [evalFStmts] using h)
    exact ⟨fun x _ => rfl,
      ⟨[], by simp, List.Forall₂.nil, fun a ha => by simpa using ha⟩,
      Or.inl rfl⟩
  | cons kw rest ih =>
    intro s s' h
    simp only [List.map_cons, evalFStmts] at h
    cases hm : envGet s.env m with
    | none => rw [stepFStmt, hm] at h; exact absurd h (by simp)
    | some a0 =>
      cases hk : envGet s.env kw.1 with
      | none => rw [stepFStmt, hm, hk] at h; exact absurd h (by simp)
      | some b =>
        rw [stepFStmt, hm, hk] at h
        obtain ⟨frame1, ⟨es1, htr1, hfa1, hsum1⟩, -⟩ := ih _ s' h
        refine ⟨?_, ⟨⟨m, some b, kw.2, some (weightApply b kw.2),
          (ustep m (some (weightApply b kw.2)) s.u).2⟩ :: es1, ?_, ?_, ?_⟩,
          Or.inr (by simp [hm])⟩
        · intro x hx
          rw [frame1 x hx]
          simp [envGet_cons, hx]
        · rw [htr1]
          simp
        · exact List.Forall₂.cons ⟨rfl, rfl, b, rfl, rfl⟩ hfa1
        · intro a ha
          have haa : a = a0 := (Option.some.inj ha).symm
          have h0 : envGet ((m, a0 + (ustep m (some (weightApply b kw.2)) s.u).2)
              :: s.env) m
              = some (a0 + (ustep m (some (weightApply b kw.2)) s.u).2) := by
            simp [envGet_cons]
          have := hsum1 _ h0
          rw [this, haa]
          simp [add_assoc]

theorem evalSource_spec {U : Type} (ustep : String → Option ℚ → U → U × ℚ)
    (m : String) (s s' : EvalSt U)
    (h : evalFStmts ustep [FStmt.sourceCall m] s = some s') :
    ∃ a r, envGet s.env m = some a ∧
      s'.trace = s.trace ++ [⟨m, none, none, none, r⟩] ∧
      envGet s'.env m = some (a + r) ∧
      ∀ x, x ≠ m → envGet s'.env x = envGet s.env x := by
  simp only [evalFStmts] at h
  cases hm : envGet s.env m with
  | none => rw [stepFStmt, hm] at h; exact absurd h (by simp)
  | some a =>
    rw [stepFStmt, hm] at h
    obtain rfl := Option.some.inj h
    refine ⟨a, (ustep m none s.u).2, rfl, rfl, by simp [envGet_cons], ?_⟩
    intro x hx
    simp [envGet_cons, hx]

theorem evalGroup_frame {U : Type} (ustep : String → Option ℚ → U → U × ℚ)
    (g : String × List (String × Option ℚ)) (s s' : EvalSt U)
    (h : evalFStmts ustep (groupFStmts g) s = some s') :
    (∀ x, x ≠ g.1 → envGet s'.env x = envGet s.env x) ∧
    ∃ es, s'.trace = s.trace ++ es ∧ ∀ e ∈ es, e.node = g.1 := by
  obtain ⟨m, deps⟩ := g
  cases deps with
  | nil =>
    obtain ⟨a, r, -, htr, -, hframe⟩ :=
      evalSource_spec ustep m s s' (by simpa [groupFStmts] using h)
    exact ⟨hframe, [⟨m, none, none, none, r⟩], htr, by simp⟩
  | cons kw rest =>
    obtain ⟨hframe, ⟨es, htr, hfa, -⟩, -⟩ :=
      evalEdges_spec ustep m (kw :: rest) s s' (by simpa [groupFStmts] using h)
    exact ⟨hframe, es, htr, forall₂_node hfa⟩

theorem evalGroups_frame {U : Type} (ustep : String → Option ℚ → U → U × ℚ)
    (n : String) :
    ∀ (gs : List (String × List (String × Option ℚ))) (s s' : EvalSt U),
      (∀ g ∈ gs, g.1 ≠ n) →
      evalFStmts ustep (gs.flatMap groupFStmts) s = some s' →
      envGet s'.env n = envGet s.env n ∧
      ∃ es, s'.trace = s.trace ++ es ∧ ∀ e ∈ es, e.node ≠ n := by
  intro gs
  induction gs with
  | nil =>
    intro s s' _ h
    obtain rfl : s = s' := Option.some.inj (by simpa [evalFStmts] using h)
    exact ⟨rfl, [], by simp, by simp⟩
  | cons g rest ih =>
    intro s s' hkeys h
    rw [List.flatMap_cons, evalFStmts_append] at h
    obtain ⟨s1, h1, h2⟩ := Option.bind_eq_some.mp h
    obtain ⟨f1, es0, htr0, hnode0⟩ := evalGroup_frame ustep g s s1 h1
    obtain ⟨f2, es1, htr1, hnode1⟩ := ih s1 s'
      (fun g' hg' => hkeys g' (List.mem_cons_of_mem g hg')) h2
    refine ⟨?_, es0 ++ es1, ?_, ?_⟩
    · rw [f2, f1 n (fun hn => hkeys g (List.mem_cons_self g rest) hn.symm)]
    · rw [htr1, htr0, List.append_assoc]
    · intro e he
      rcases List.mem_append.mp he with he' | he'
      · rw [hnode0 e he']
        exact hkeys g (List.mem_cons_self g rest)
      · exact hnode1 e he'

theorem nodupKeys_split {n : String} {deps : List (String × Option ℚ)}
    {d_e pre post : List (String × List (String × Option ℚ))}
    (hsplit : d_e = pre ++ (n, deps) :: post)
    (hnd : (d_e.map Prod.fst).Nodup) :
    (∀ g ∈ pre, g.1 ≠ n) ∧ (∀ g ∈ post, g.1 ≠ n) := by
  subst hsplit
  rw [List.map_append, List.map_cons, List.nodup_append] at hnd
  obtain ⟨h1, h2, hdisj⟩ := hnd
  constructor
  · intro g hg hgn
    have h3 : g.1 ∈ pre.map Prod.fst := List.mem_map_of_mem Prod.fst hg
    rw [hgn] at h3
    exact hdisj h3 (List.mem_cons_self _ _)
  · intro g hg hgn
    have h3 : g.1 ∈ post.map Prod.fst := List.mem_map_of_mem Prod.fst hg
    rw [hgn] at h3
    exact (List.nodup_cons.mp h2).1 h3

/-! ## Claims about the assembled forward pass and node semantics -/

/-- C4: in the assembled forward pass, a node with a non-empty
dependency set is invoked exactly once per predecessor entry, in order;
each invocation consumes that predecessor's current running value
multiplied by the edge's declared weight (unmultiplied when none is
declared); and the node's running value ends as the sum of the per-edge
invocation results. -/
theorem C4_fanin_per_edge_sum {U : Type}
    (ustep : String → Option ℚ → U → U × ℚ) (u0 : U)
    (eo : List String) (d_e : List (String × List (String × Option ℚ)))
    (n : String) (deps : List (String × Option ℚ))
    (heo : eo ≠ []) (hmem : (n, deps) ∈ d_e) (hne : deps ≠ [])
    (hnd : (d_e.map Prod.fst).Nodup) (st : EvalSt U)
    (hev : evalFStmts ustep (forwardStmts eo d_e) ⟨[], u0, []⟩ = some st) :
    List.Forall₂ (entryMatches n)
      (st.trace.filter (fun e => e.node == n)) deps ∧
    envGet st.env n
      = some (((st.trace.filter (fun e => e.node == n)).map
          (fun e => e.result)).sum) := by
  obtain ⟨pre, post, hsplit⟩ := List.append_of_mem hmem
  obtain ⟨hpre, hpost⟩ := nodupKeys_split hsplit hnd
  subst hsplit
  rw [forwardStmts, if_neg heo, evalFStmts_append] at hev
  obtain ⟨s1, hi, hev⟩ := Option.bind_eq_some.mp hev
  obtain ⟨s1', hi', -, htr1, henv1⟩ := evalInits ustep eo ⟨[], u0, []⟩
  rw [hi'] at hi
  obtain rfl := Option.some.inj hi
  rw [List.flatMap_append, evalFStmts_append] at hev
  obtain ⟨s2, hp, hev⟩ := Option.bind_eq_some.mp hev
  rw [List.flatMap_cons, evalFStmts_append] at hev
  obtain ⟨s3, hg, hq⟩ := Option.bind_eq_some.mp hev
  obtain ⟨henvpre, espre, htrpre, hnodepre⟩ :=
    evalGroups_frame ustep n pre s1' s2 hpre hp
  cases deps with
  | nil => exact absurd rfl hne
  | cons kw rest =>
    have hgstmts : groupFStmts (n, kw :: rest)
        = (kw :: rest).map (fun kw => FStmt.edgeCall n kw.1 kw.2) := by
      simp [groupFStmts]
    rw [hgstmts] at hg
    obtain ⟨frameg, ⟨esn, htrn, hfan, hsumn⟩, hsome⟩ :=
      evalEdges_spec ustep n (kw :: rest) s2 s3 hg
    have h20 : envGet s2.env n = if n ∈ eo then some 0 else none := by
      rw [henvpre, henv1 n]
      rfl
    have hsome' : (envGet s2.env n).isSome = true :=
      hsome.resolve_left (by simp)
    have hin : n ∈ eo := by
      by_contra hn
      rw [h20, if_neg hn] at hsome'
      simp at hsome'
    have h2z : envGet s2.env n = some 0 := by rw [h20, if_pos hin]
    have h3n := hsumn 0 h2z
    obtain ⟨henvpost, espost, htrpost, hnodepost⟩ :=
      evalGroups_frame ustep n post s3 st hpost hq
    have htrace : st.trace = espre ++ (esn ++ espost) := by
      rw [htrpost, htrn, htrpre, htr1]
      simp
    have hfilter : st.trace.filter (fun e => e.node == n) = esn := by
      rw [htrace, List.filter_append, List.filter_append]
      have e1 : espre.filter (fun e => e.node == n) = [] :=
        List.filter_eq_nil_iff.mpr (fun e he => by simp [hnodepre e he])
      have e2 : esn.filter (fun e => e.node == n) = esn :=
        List.filter_eq_self.mpr (fun e he => by simp [forall₂_node hfan e he])
      have e3 : espost.filter (fun e => e.node == n) = [] :=
        List.filter_eq_nil_iff.mpr (fun e he => by simp [hnodepost e he])
      rw [e1, e2, e3]
      simp
    refine ⟨by rw [hfilter]; exact hfan, ?_⟩
    rw [hfilter, henvpost, h3n, zero_add]

/-- C4 witness: on the two-node graph `A→B` with weight 2,
units returning argument-plus-one (3-plus-one for the no-argument
call), node `B` is invoked once, consuming `4 * 2 = 8`, and ends with
running value 9, the sum of its single invocation result. -/
theorem C4_fanin_per_edge_sum_witness :
    List.Forall₂ (entryMatches "B")
      ((c4stW.trace).filter (fun e => e.node == "B")) [("A", some 2)] ∧
    envGet c4stW.env "B"
      = some (((c4stW.trace.filter (fun e => e.node == "B")).map
          (fun e => e.result)).sum) :=
  C4_fanin_per_edge_sum ustepW () ["A", "B"] [("A", []), ("B", [("A", some 2)])]
    "B" [("A", some 2)] (by decide) (by decide) (by decide) (by decide)
    c4stW (by
      simp only [forwardStmts, groupFStmts, evalFStmts, stepFStmt, ustepW,
        envGet, List.lookup, weightApply, c4stW, List.map, List.flatMap_cons,
        List.flatMap_nil, List.append_nil, List.cons_append, List.nil_append,
        show ("A" == "B") = false from by decide,
        show ("B" == "B") = true from by decide,
        show ("B" == "A") = false from by decide,
        show ("A" == "A") = true from by decide]
      norm_num)

/-- C5 as amended: a node with an empty dependency set generates the
single no-argument call `self.{node}()`; under evaluation its unit is
invoked exactly once with no argument (the trace entry consumes no
sender value), and its running value is that invocation's result.  The
external input is never passed to it. -/
theorem C5_source_invoked_without_input {U : Type}
    (ustep : String → Option ℚ → U → U × ℚ) (u0 : U)
    (eo : List String) (d_e : List (String × List (String × Option ℚ)))
    (n : String)
    (heo : eo ≠ []) (hmem : (n, []) ∈ d_e)
    (hnd : (d_e.map Prod.fst).Nodup) (st : EvalSt U)
    (hev : evalFStmts ustep (forwardStmts eo d_e) ⟨[], u0, []⟩ = some st) :
    groupFStmts (n, []) = [FStmt.sourceCall n] ∧
    renderFStmt (FStmt.sourceCall n)
      = "\n\n\t\t val_" ++ n ++ "=val_" ++ n ++ "+self." ++ n ++ "()" ∧
    ∃ r, st.trace.filter (fun e => e.node == n) = [⟨n, none, none, none, r⟩] ∧
      envGet st.env n = some r := by
  obtain ⟨pre, post, hsplit⟩ := List.append_of_mem hmem
  obtain ⟨hpre, hpost⟩ := nodupKeys_split hsplit hnd
  subst hsplit
  rw [forwardStmts, if_neg heo, evalFStmts_append] at hev
  obtain ⟨s1, hi, hev⟩ := Option.bind_eq_some.mp hev
  obtain ⟨s1', hi', -, htr1, henv1⟩ := evalInits ustep eo ⟨[], u0, []⟩
  rw [hi'] at hi
  obtain rfl := Option.some.inj hi
  rw [List.flatMap_append, evalFStmts_append] at hev
  obtain ⟨s2, hp, hev⟩ := Option.bind_eq_some.mp hev
  rw [List.flatMap_cons, evalFStmts_append] at hev
  obtain ⟨s3, hg, hq⟩ := Option.bind_eq_some.mp hev
  obtain ⟨henvpre, espre, htrpre, hnodepre⟩ :=
    evalGroups_frame ustep n pre s1' s2 hpre hp
  obtain ⟨a, r, hm, htrn, henvn, -⟩ :=
    evalSource_spec ustep n s2 s3 (by simpa [groupFStmts] using hg)
  have h20 : envGet s2.env n = if n ∈ eo then some 0 else none := by
    rw [henvpre, henv1 n]
    rfl
  have hin : n ∈ eo := by
    by_contra hn
    rw [h20, if_neg hn] at hm
    exact absurd hm (by simp)
  have ha0 : a = 0 := by
    rw [h20, if_pos hin] at hm
    exact (Option.some.inj hm).symm
  obtain ⟨henvpost, espost, htrpost, hnodepost⟩ :=
    evalGroups_frame ustep n post s3 st hpost hq
  have htrace : st.trace = espre ++ ([⟨n, none, none, none, r⟩] ++ espost) := by
    rw [htrpost, htrn, htrpre, htr1]
    simp
  refine ⟨rfl, rfl, r, ?_, ?_⟩
  · rw [htrace, List.filter_append, List.filter_append]
    have e1 : espre.filter (fun e => e.node == n) = [] :=
      List.filter_eq_nil_iff.mpr (fun e he => by simp [hnodepre e he])
    have e3 : espost.filter (fun e => e.node == n) = [] :=
      List.filter_eq_nil_iff.mpr (fun e he => by simp [hnodepost e he])
    rw [e1, e3]
    simp
  · rw [henvpost, henvn, ha0, zero_add]

/-- C5 witness: in the witness graph, source node `A` generates
`self.A()`, is invoked once with no argument, and its running value is
its sole invocation result 4. -/
theorem C5_source_invoked_without_input_witness :
    groupFStmts ("A", []) = [FStmt.sourceCall "A"] ∧
    renderFStmt (FStmt.sourceCall "A")
      = "\n\n\t\t val_" ++ "A" ++ "=val_" ++ "A" ++ "+self." ++ "A" ++ "()" ∧
    ∃ r, c4stW.trace.filter (fun e => e.node == "A")
        = [⟨"A", none, none, none, r⟩] ∧
      envGet c4stW.env "A" = some r :=
  C5_source_invoked_without_input ustepW ()
    ["A", "B"] [("A", []), ("B", [("A", some 2)])] "A"
    (by decide) (by decide) (by decide) c4stW (by
      simp only [forwardStmts, groupFStmts, evalFStmts, stepFStmt, ustepW,
        envGet, List.lookup, weightApply, c4stW, List.map, List.flatMap_cons,
        List.flatMap_nil, List.append_nil, List.cons_append, List.nil_append,
        show ("A" == "B") = false from by decide,
        show ("B" == "B") = true from by decide,
        show ("B" == "A") = false from by decide,
        show ("A" == "A") = true from by decide]
      norm_num)

/-- C6 as amended: for a stateful non-function parameter with no direct
value and a (non-empty) time-derivative expression, the generated
forward body is the single accumulation statement
`self.p = self.p + (sym(td))`; when the translated derivative evaluates
to the constant `k`, `n` invocations from state 0 leave the state at
`n * k` with the execution counter at `n`. -/
theorem C6_accumulation (reg : List (String × String)) (ps : List String)
    (pid td : String) (dflt : Option PyVal) (k : ℕ)
    (htd : td ≠ "") (hk : strToNat (sym ps td) = some k) :
    forwardStmtsOfNode reg ps [⟨pid, none, true, dflt, some td, none, []⟩]
      = .ok [.accumState pid (sym ps td)] ∧
    ∀ (n : ℕ) (st' : PState),
      runN [.accumState pid (sym ps td)] n ⟨[(pid, 0)], 0⟩ = some st' →
      envGet st'.vars pid = some ((n * k : ℕ) : ℚ) ∧ st'.count = n := by
  constructor
  · simp [forwardStmtsOfNode, fwdParamStep, List.foldlM, htd, Except.map]
  · intro n
    induction n with
    | zero =>
      intro st' h
      obtain rfl : (⟨[(pid, 0)], 0⟩ : PState) = st' :=
        Option.some.inj (by simpa [runN] using h)
      refine ⟨?_, rfl⟩
      simp [envGet_cons]
    | succ m ih =>
      intro st' h
      rw [runN] at h
      obtain ⟨st1, h1, h2⟩ := Option.bind_eq_some.mp h
      obtain ⟨henv, hcount⟩ := ih st1 h1
      have heval : evalES st1.vars [] (sym ps td) = some ((k : ℕ) : ℚ) := by
        simp [evalES, hk]
      rw [runFwd] at h2
      simp only [List.foldlM, runStmt, henv, heval, Option.bind_some,
        Option.map_some, Option.bind_eq_bind] at h2
      simp only [Option.some_bind, Option.map_some] at h2
      obtain rfl :=
        Option.some.inj (by simpa using h2)
      constructor
      · rw [envGet_cons]
        simp only [if_pos rfl, Option.some.injEq]
        push_cast
        ring_nf
      · simpa using hcount

/-- C6 witness: with translated derivative `"2"` (so `k = 2`), three
invocations from state 0 leave the state at `3 * 2 = 6` and the counter
at 3. -/
theorem C6_accumulation_witness :
    forwardStmtsOfNode [] [] [⟨"s", none, true, none, some "2", none, []⟩]
      = .ok [.accumState "s" (sym [] "2")] ∧
    envGet (⟨[("s", 6), ("s", 4), ("s", 2), ("s", 0)], 3⟩ : PState).vars "s"
      = some ((3 * 2 : ℕ) : ℚ) ∧
    (⟨[("s", 6), ("s", 4), ("s", 2), ("s", 0)], 3⟩ : PState).count = 3 :=
  ⟨(C6_accumulation [] [] "s" "2" none 2 (by decide) (by decide)).1,
   ((C6_accumulation [] [] "s" "2" none 2 (by decide) (by decide)).2 3
      ⟨[("s", 6), ("s", 4), ("s", 2), ("s", 0)], 3⟩ (by
        have he : ∀ (vars locals : List (String × ℚ)),
            evalES vars locals (sym [] "2") = some ((2 : ℕ) : ℚ) :=
          fun vars locals => by
            simp [evalES, show strToNat (sym [] "2") = some 2 from by decide]
        simp only [runN, runFwd, List.foldlM, runStmt, he, envGet_cons]
        norm_num [envGet, List.lookup,
          show (("s" : String) == "s") = true from by decide])).1,
   ((C6_accumulation [] [] "s" "2" none 2 (by decide) (by decide)).2 3
      ⟨[("s", 6), ("s", 4), ("s", 2), ("s", 0)], 3⟩ (by
        have he : ∀ (vars locals : List (String × ℚ)),
            evalES vars locals (sym [] "2") = some ((2 : ℕ) : ℚ) :=
          fun vars locals => by
            simp [evalES, show strToNat (sym [] "2") = some 2 from by decide]
        simp only [runN, runFwd, List.foldlM, runStmt, he, envGet_cons]
        norm_num [envGet, List.lookup,
          show (("s" : String) == "s") = true from by decide])).2⟩

end MDF
